import Mathlib

/-!
Shallow embedding of the view-compilation and aggregation engine of the
metrics SDK (packages viewstate and asyncstate), together with the parts of
its collaborators (sum aggregator kernel, reader output model, instrument
kinds) that the sources reference but do not contain; those parts are
modelled from the specification and are marked as such.

Go maps over attribute sets are embedded as association lists with the
iteration order made explicit; machine timestamps are Nat, numeric values
are Int (the int64 instantiation; overflow plays no role in the properties
below).
-/

namespace OtelMetrics

/-- Kind is the number kind of an instrument (from number/kind.go). -/
inductive NumberKind where
  | Int64Kind
  | Float64Kind
deriving DecidableEq, Repr

/-- Modelled from the spec: the six instrument kinds of the sdkinstrument
package, which is not among the sources. -/
inductive InstrumentKind where
  | Counter
  | UpDownCounter
  | Histogram
  | CounterObserver
  | UpDownCounterObserver
  | GaugeObserver
deriving DecidableEq, Repr

/-- Modelled from the spec: a descriptor is synchronous iff its kind is
Counter, UpDownCounter or Histogram. -/
def InstrumentKind.Synchronous (k : InstrumentKind) : Bool :=
  match k with
  | .Counter | .UpDownCounter | .Histogram => true
  | _ => false

/-- Modelled from the spec: a kind has temporality iff it is counter-like,
i.e. not GaugeObserver (there is no synchronous Gauge kind). -/
def InstrumentKind.HasTemporality (k : InstrumentKind) : Bool :=
  match k with
  | .GaugeObserver => false
  | _ => true

/-- Modelled from the spec: the immutable instrument descriptor
{name, instrument kind, number kind, description, unit} of the sdkapi
package, which is not among the sources. -/
structure Descriptor where
  name : String
  ikind : InstrumentKind
  nkind : NumberKind
  description : String
  unit : String
deriving DecidableEq, Repr

/-- Modelled from the spec: the view fields consulted by viewDescriptor
(HasName/Name/Description); the views package is not among the sources. -/
structure View where
  hasName : Bool
  name : String
  description : String
deriving DecidableEq, Repr

/-- viewDescriptor from viewstate.go: builds the descriptor for a compiled
pipeline from the instrument descriptor and the matched view.  Note the
source assigns the instrument's own description inside the guard on the
view's description. -/
def viewDescriptor (instrument : Descriptor) (v : View) : Descriptor :=
  let name := if v.hasName then v.name else instrument.name
  let description := if v.description ≠ "" then instrument.description else instrument.description
  ⟨name, instrument.ikind, instrument.nkind, description, instrument.unit⟩

/-! ## Sum aggregator kernel

The aggregator/sum package is not among the sources.  Modelled from the
spec: storage is a single number; Update adds; SynchronizedMove moves the
accumulated value out leaving the input empty; Merge folds a source into a
destination; Reset returns to the Init state; SubtractSwap stores the
difference new minus prior into prior; HasData asks whether the state
differs from Init. -/

/-- Modelled from the spec: Init for the sum kernel (zero). -/
def sumInit : Int := 0

/-- Modelled from the spec: Update absorbs one measurement by addition. -/
def sumUpdate (s v : Int) : Int := s + v

/-- Modelled from the spec: Merge folds src into dst, returning the new dst. -/
def sumMerge (src dst : Int) : Int := dst + src

/-- Modelled from the spec: Reset returns the storage to the Init state. -/
def sumReset (_s : Int) : Int := 0

/-- Modelled from the spec: SynchronizedMove moves the accumulated value out
of the input, returning (new input, moved value). -/
def sumSynchronizedMove (input : Int) : Int × Int := (0, input)

/-- Modelled from the spec: SubtractSwap stores new minus prior into prior,
returning the new prior value. -/
def sumSubtractSwap (new prior : Int) : Int := new - prior

/-- Modelled from the spec: HasData holds iff the state changed from Init. -/
def sumHasData (s : Int) : Bool := decide (s ≠ 0)

/-! ## Reader output model (modelled from the spec; reader package absent). -/

/-- Modelled from the spec: the Sequence of collection timestamps
{Start, Last, Now} supplied by a reader at each collection. -/
structure Sequence where
  Start : Nat
  Last : Nat
  Now : Nat
deriving DecidableEq, Repr

/-- Modelled from the spec: one output series
{attributes, aggregation snapshot, start, end}.  Attribute sets are value
identities (invariant I1), embedded as Nat identifiers of the canonical
form. -/
structure Series where
  Attributes : Nat
  Aggregation : Int
  Start : Nat
  End : Nat
deriving DecidableEq, Repr

/-! ## Association-list embedding of the pipeline data maps. -/

/-- Lookup in an attribute-set keyed map. -/
def alookup (a : Nat) : List (Nat × Int) → Option Int
  | [] => none
  | (b, v) :: rest => if a = b then some v else alookup a rest

/-- Point update of an attribute-set keyed map (key assumed present). -/
def updAt : List (Nat × Int) → Nat → (Int → Int) → List (Nat × Int)
  | [], _, _ => []
  | (b, v) :: rest, a, f => if a = b then (b, f v) :: rest else (b, v) :: updAt rest a f

/-- findOutput from viewstate.go: look up the storage cell for an attribute
set in the pipeline map, allocating a fresh Init cell on first encounter. -/
def findOutput (data : List (Nat × Int)) (a : Nat) : List (Nat × Int) :=
  match alookup a data with
  | some _ => data
  | none => data ++ [(a, sumInit)]

/-! ## Synchronous accumulator (syncAccumulator in viewstate.go).

The Go accumulator holds a pointer into the pipeline map; here the output
cell is addressed by its attribute-set key and Accumulate takes and returns
the pipeline map explicitly. -/

structure syncAccumulator where
  current : Int
  snapshot : Int
  outputAttr : Nat
deriving DecidableEq, Repr

/-- syncAccumulator.Update: hot path, folds the measurement into current. -/
def syncAccumulator.Update (sc : syncAccumulator) (value : Int) : syncAccumulator :=
  ⟨sumUpdate sc.current value, sc.snapshot, sc.outputAttr⟩

/-- syncAccumulator.Accumulate: SynchronizedMove current into snapshot, then
Merge snapshot into the output cell of the pipeline map. -/
def syncAccumulator.Accumulate (sc : syncAccumulator) (data : List (Nat × Int)) :
    syncAccumulator × List (Nat × Int) :=
  let moved := sumSynchronizedMove sc.current
  let sc2 : syncAccumulator := ⟨moved.1, moved.2, sc.outputAttr⟩
  (sc2, updAt data sc2.outputAttr (fun out => sumMerge sc2.snapshot out))

/-! ## Collect paths (viewstate.go). -/

/-- statelessSyncProcess.Collect (Synchronous Delta to Delta): for each
entry, entries without data are deleted; otherwise the accumulated value is
merged into a freshly allocated storage ns (the spec describes this step as
Merge of storage into ns; the aggregator package itself is absent from the
sources), the map cell is Reset in place, and a series with Start = seq.Last
and End = seq.Now is appended. -/
def statelessSyncCollect (seq : Sequence) : List (Nat × Int) → List (Nat × Int) × List Series
  | [] => ([], [])
  | (a, storage) :: rest =>
    if sumHasData storage then
      ((a, sumReset storage) :: (statelessSyncCollect seq rest).1,
       Series.mk a (sumMerge storage sumInit) seq.Last seq.Now :: (statelessSyncCollect seq rest).2)
    else
      statelessSyncCollect seq rest

/-- The per-entry emission decision of statefulAsyncProcess.Collect:
with a prior entry, SubtractSwap writes storage minus prior into the prior
cell; the series is skipped when the difference has no data; the difference
is emitted for kinds with temporality, the new cumulative value otherwise;
without a prior entry the cumulative value is emitted. -/
def asyncSeriesOf (k : InstrumentKind) (seq : Sequence) (prior : List (Nat × Int))
    (e : Nat × Int) : Option Series :=
  match alookup e.1 prior with
  | some pv =>
    if sumHasData (sumSubtractSwap e.2 pv) then
      some (Series.mk e.1 (if k.HasTemporality then sumSubtractSwap e.2 pv else e.2) seq.Start seq.Now)
    else none
  | none => some (Series.mk e.1 e.2 seq.Start seq.Now)

/-- statefulAsyncProcess.Collect (Asynchronous Cumulative to Delta): emits
per asyncSeriesOf, then the prior map becomes the data map just iterated
over and the data map becomes empty.  The result is ((new data, new prior),
series). -/
def statefulAsyncCollect (k : InstrumentKind) (seq : Sequence)
    (data prior : List (Nat × Int)) :
    (List (Nat × Int) × List (Nat × Int)) × List Series :=
  (([], data), data.filterMap (asyncSeriesOf k seq prior))

/-! ## View compiler name registration (Compiler.Compile in viewstate.go). -/

/-- Result of the per-reader loop of Compiler.Compile over the configured
behaviors: the updated emitted-name set, the names for which a pipeline was
built (in order), and the names for which a duplicate-name diagnostic was
reported. -/
structure CompileReaderResult where
  names : List String
  built : List String
  dups : List String
deriving DecidableEq, Repr

/-- The per-reader loop of Compiler.Compile: for each configured behavior,
if its emitted name is already registered, report a duplicate and skip;
otherwise register the name and build a pipeline; in both cases continue
with the remaining behaviors. -/
def compileReader (names : List String) : List String → CompileReaderResult
  | [] => ⟨names, [], []⟩
  | c :: rest =>
    if c ∈ names then
      ⟨(compileReader names rest).names, (compileReader names rest).built,
       c :: (compileReader names rest).dups⟩
    else
      ⟨(compileReader (c :: names) rest).names,
       c :: (compileReader (c :: names) rest).built,
       (compileReader (c :: names) rest).dups⟩

/-- The Compiler: its per-reader emitted-name sets live for the whole
lifetime of the Compiler, across Compile invocations.  Readers are indexed
as in the readers slice. -/
structure Compiler where
  names : Nat → List String

/-- Compiler.Compile: one invocation processes, for every reader, that
reader's configured behaviors against the persistent name set, and
returns the updated Compiler together with each reader's result. -/
def Compiler.Compile (c : Compiler) (cfgs : Nat → List String) :
    Compiler × (Nat → CompileReaderResult) :=
  (⟨fun r => (compileReader (c.names r) (cfgs r)).names⟩,
   fun r => compileReader (c.names r) (cfgs r))

/-- The compiled-instrument wrapper of Compiler.Compile: zero pipelines
yield the nil instrument; a single reader with a single pipeline is
returned directly; otherwise a Multi keyed by reader. -/
inductive CompiledInstrument where
  | single (pipeline : String)
  | multi (perReader : List (List String))
deriving DecidableEq, Repr

/-- The final wrap step of Compiler.Compile over the per-reader pipeline
lists (only readers with at least one pipeline occupy the Go map). -/
def compileWrap (compiled : List (List String)) : Option CompiledInstrument :=
  match compiled.filter (fun l => !l.isEmpty) with
  | [] => none
  | [[n]] => some (.single n)
  | ne => some (.multi ne)

/-! ## Asynchronous instrument state (asyncstate/async.go). -/

/-- The asynchronous Instrument: its compiled view-state instrument is the
result of Compiler.Compile and is nil (none) when compilation produced zero
pipelines; the per-reader store maps attribute sets to accumulators and is
threaded explicitly below. -/
structure AsyncInstrument where
  id : Nat
  kind : InstrumentKind
  compiled : Option Unit
deriving DecidableEq, Repr

/-- The readerCallback value carried by the scoped context during
Callback.Run: the reader plus the set of declared instruments. -/
structure readerCallback where
  reader : Nat
  declared : List Nat
deriving DecidableEq, Repr

/-- The diagnostics Observe hands to the global handler. -/
inductive ObserveError where
  | outsideCallback
  | notDeclared
  | rangeViolation
deriving DecidableEq, Repr

/-- Outcome of one Observe call: the reader's accumulator store afterwards
(attribute set to last observed value), the reported diagnostics, and
whether the call dereferenced a nil compiled instrument (a runtime fault in
the Go source). -/
structure ObserveOut where
  store : List (Nat × Int)
  errors : List ObserveError
  fault : Bool
deriving DecidableEq, Repr

/-- Modelled from the spec: RangeTest of the aggregator package (absent from
the sources) rejects negative values for counter instruments; the NaN cases
concern only the float instantiation. -/
def RangeTest (k : InstrumentKind) (v : Int) : Bool :=
  match k with
  | .Counter | .CounterObserver => decide (0 ≤ v)
  | _ => true

/-- Instrument.get from async.go: look up the accumulator for the attribute
set in the reader's store; on a miss, call NewAccumulator on the compiled
instrument (a nil compiled instrument makes this call fault) and record it.
Returns the store after the lookup, or none for the nil-dereference. -/
def AsyncInstrument.get (inst : AsyncInstrument) (attrs : Nat)
    (store : List (Nat × Int)) : Option (List (Nat × Int)) :=
  match alookup attrs store with
  | some _ => some store
  | none =>
    match inst.compiled with
    | some _ => some (store ++ [(attrs, 0)])
    | none => none

/-- Observer.Observe from async.go: without a scoped callback context,
report and return; with one, report when the instrument is not declared by
the callback (the source then falls through), range-test the value, and
route it to the per-reader accumulator obtained from Instrument.get, whose
Update overwrites the last observed value. -/
def Observe (inst : AsyncInstrument) (ctx : Option readerCallback) (value : Int)
    (attrs : Nat) (store : List (Nat × Int)) : ObserveOut :=
  match ctx with
  | none => ⟨store, [.outsideCallback], false⟩
  | some rc =>
    let errs := if inst.id ∈ rc.declared then [] else [ObserveError.notDeclared]
    if RangeTest inst.kind value then
      match inst.get attrs store with
      | some st => ⟨updAt st attrs (fun _ => value), errs, false⟩
      | none => ⟨store, errs, true⟩
    else
      ⟨store, errs ++ [ObserveError.rangeViolation], false⟩

/-! ## Concrete scenario data (spec seed scenario 2). -/

/-- Fresh pipeline map after the first accumulator binds attribute set 0. -/
def c1Data0 : List (Nat × Int) := findOutput [] 0

/-- Accumulator for attribute set 0 after updates +3, +4, +5. -/
def c1Step1 : syncAccumulator :=
  (((⟨0, 0, 0⟩ : syncAccumulator).Update 3).Update 4).Update 5

/-- First flush into the pipeline map. -/
def c1Flush1 : syncAccumulator × List (Nat × Int) := c1Step1.Accumulate c1Data0

/-- First delta collection (Last = 0, Now = 1). -/
def c1Collect1 : List (Nat × Int) × List Series :=
  statelessSyncCollect ⟨0, 0, 1⟩ c1Flush1.2

/-- Second flush after a further +1. -/
def c1Flush2 : syncAccumulator × List (Nat × Int) :=
  (c1Flush1.1.Update 1).Accumulate c1Collect1.1

/-- Second delta collection (Last = 1, Now = 2). -/
def c1Collect2 : List (Nat × Int) × List Series :=
  statelessSyncCollect ⟨0, 1, 2⟩ c1Flush2.2

/-! ## Helper lemmas -/

theorem statelessSyncCollect_mem (seq : Sequence) (data : List (Nat × Int)) (a : Nat) (v : Int)
    (hmem : (a, v) ∈ data) (hv : v ≠ 0) :
    Series.mk a v seq.Last seq.Now ∈ (statelessSyncCollect seq data).2
      ∧ (a, (0 : Int)) ∈ (statelessSyncCollect seq data).1 := by
  induction data with
  | nil => simp at hmem
  | cons hd tl ih =>
    obtain ⟨p, q⟩ := hd
    rcases List.mem_cons.mp hmem with h | h
    · injection h with h1 h2
      subst h1; subst h2
      simp [statelessSyncCollect, sumHasData, hv, sumReset, sumMerge, sumInit]
    · have ih2 := ih h
      by_cases hq : q = 0
      · simpa [statelessSyncCollect, sumHasData, hq] using ih2
      · have hcol : statelessSyncCollect seq ((p, q) :: tl)
            = ((p, sumReset q) :: (statelessSyncCollect seq tl).1,
               Series.mk p (sumMerge q sumInit) seq.Last seq.Now
                 :: (statelessSyncCollect seq tl).2) := by
          simp [statelessSyncCollect, sumHasData, hq]
        rw [hcol]
        exact ⟨List.mem_cons_of_mem _ ih2.1, List.mem_cons_of_mem _ ih2.2⟩

theorem statelessSyncCollect_keys_sub (seq : Sequence) :
    ∀ (data : List (Nat × Int)) (x : Nat),
      x ∈ ((statelessSyncCollect seq data).1.map Prod.fst) → x ∈ data.map Prod.fst := by
  intro data
  induction data with
  | nil => intro x hx; simp [statelessSyncCollect] at hx
  | cons hd tl ih =>
    obtain ⟨p, q⟩ := hd
    intro x hx
    by_cases hq : q = 0
    · have hx2 : x ∈ ((statelessSyncCollect seq tl).1.map Prod.fst) := by
        simpa [statelessSyncCollect, sumHasData, hq] using hx
      simpa using Or.inr (ih x hx2)
    · have hcol : (statelessSyncCollect seq ((p, q) :: tl)).1
          = (p, sumReset q) :: (statelessSyncCollect seq tl).1 := by
        simp [statelessSyncCollect, sumHasData, hq]
      rw [hcol] at hx
      simp only [List.map_cons, List.mem_cons] at hx ⊢
      rcases hx with h | h
      · exact Or.inl h
      · exact Or.inr (ih x h)

theorem statelessSyncCollect_absent (seq : Sequence) :
    ∀ (data : List (Nat × Int)) (a : Nat) (v : Int),
      (data.map Prod.fst).Nodup → (a, v) ∈ data → v = 0 →
      a ∉ ((statelessSyncCollect seq data).1.map Prod.fst) := by
  intro data
  induction data with
  | nil => intro a v _ h _; simp at h
  | cons hd tl ih =>
    obtain ⟨p, q⟩ := hd
    intro a v hnd hmem hv
    rw [List.map_cons] at hnd
    have hnd1 : p ∉ tl.map Prod.fst := (List.nodup_cons.mp hnd).1
    have hnd2 : (tl.map Prod.fst).Nodup := (List.nodup_cons.mp hnd).2
    rcases List.mem_cons.mp hmem with h | h
    · injection h with h1 h2
      subst h1; subst h2; subst hv
      intro hcontra
      have hcol : statelessSyncCollect seq ((a, (0 : Int)) :: tl) = statelessSyncCollect seq tl := by
        simp [statelessSyncCollect, sumHasData]
      rw [hcol] at hcontra
      exact hnd1 (statelessSyncCollect_keys_sub seq tl a hcontra)
    · have ihh := ih a v hnd2 h hv
      by_cases hq : q = 0
      · have hcol : statelessSyncCollect seq ((p, q) :: tl) = statelessSyncCollect seq tl := by
          simp [statelessSyncCollect, sumHasData, hq]
        rw [hcol]; exact ihh
      · have hcol : (statelessSyncCollect seq ((p, q) :: tl)).1
            = (p, sumReset q) :: (statelessSyncCollect seq tl).1 := by
          simp [statelessSyncCollect, sumHasData, hq]
        intro hcontra
        rw [hcol] at hcontra
        simp only [List.map_cons, List.mem_cons] at hcontra
        rcases hcontra with h1 | h1
        · apply hnd1
          rw [← h1]
          exact List.mem_map.mpr ⟨(a, v), h, rfl⟩
        · exact ihh h1

theorem nodupKeys_eq_val : ∀ (data : List (Nat × Int)) (a : Nat) (v w : Int),
    (data.map Prod.fst).Nodup → (a, v) ∈ data → (a, w) ∈ data → v = w := by
  intro data
  induction data with
  | nil => intro a v w _ h _; simp at h
  | cons hd tl ih =>
    obtain ⟨p, q⟩ := hd
    intro a v w hnd hv hw
    rw [List.map_cons] at hnd
    have hnd1 : p ∉ tl.map Prod.fst := (List.nodup_cons.mp hnd).1
    have hnd2 : (tl.map Prod.fst).Nodup := (List.nodup_cons.mp hnd).2
    rcases List.mem_cons.mp hv with h1 | h1 <;> rcases List.mem_cons.mp hw with h2 | h2
    · injection h1 with ha1 hv1
      injection h2 with ha2 hw1
      rw [hv1, hw1]
    · injection h1 with ha1 hv1
      subst ha1
      exact absurd (List.mem_map.mpr ⟨(a, w), h2, rfl⟩) hnd1
    · injection h2 with ha2 hw1
      subst ha2
      exact absurd (List.mem_map.mpr ⟨(a, v), h1, rfl⟩) hnd1
    · exact ih a v w hnd2 h1 h2

theorem asyncSeriesOf_attr (k : InstrumentKind) (seq : Sequence) (prior : List (Nat × Int))
    (e : Nat × Int) (s : Series) (h : asyncSeriesOf k seq prior e = some s) :
    s.Attributes = e.1 ∧ s.Start = seq.Start ∧ s.End = seq.Now := by
  unfold asyncSeriesOf at h
  split at h
  · split at h
    · injection h with h2
      subst h2
      exact ⟨rfl, rfl, rfl⟩
    · simp at h
  · injection h with h2
    subst h2
    exact ⟨rfl, rfl, rfl⟩

theorem compileReader_mem_names : ∀ (cfgs ns : List String) (n : String),
    n ∈ (compileReader ns cfgs).names ↔ (n ∈ ns ∨ n ∈ cfgs) := by
  intro cfgs
  induction cfgs with
  | nil => intro ns n; simp [compileReader]
  | cons c rest ih =>
    intro ns n
    by_cases hc : c ∈ ns
    · by_cases hnc : n = c
      · subst hnc
        simp [compileReader, hc, ih, List.mem_cons]
      · simp [compileReader, hc, ih, List.mem_cons, hnc]
    · by_cases hnc : n = c
      · subst hnc
        simp [compileReader, hc, ih, List.mem_cons]
      · simp [compileReader, hc, ih, List.mem_cons, hnc]

theorem compileReader_mem_built : ∀ (cfgs ns : List String) (n : String),
    n ∈ (compileReader ns cfgs).built ↔ (n ∈ cfgs ∧ n ∉ ns) := by
  intro cfgs
  induction cfgs with
  | nil => intro ns n; simp [compileReader]
  | cons c rest ih =>
    intro ns n
    by_cases hc : c ∈ ns
    · by_cases hnc : n = c
      · subst hnc
        simp [compileReader, hc, ih, List.mem_cons]
      · simp [compileReader, hc, ih, List.mem_cons, hnc]
    · by_cases hnc : n = c
      · subst hnc
        simp [compileReader, hc, ih, List.mem_cons]
      · simp [compileReader, hc, ih, List.mem_cons, hnc]

theorem compileReader_built_nodup : ∀ (cfgs ns : List String),
    (compileReader ns cfgs).built.Nodup := by
  intro cfgs
  induction cfgs with
  | nil => intro ns; simp [compileReader]
  | cons c rest ih =>
    intro ns
    by_cases hc : c ∈ ns
    · simpa [compileReader, hc] using ih ns
    · have hshape : (compileReader ns (c :: rest)).built
          = c :: (compileReader (c :: ns) rest).built := by
        simp [compileReader, hc]
      rw [hshape]
      refine List.nodup_cons.mpr ⟨?_, ih (c :: ns)⟩
      intro hmem
      exact ((compileReader_mem_built rest (c :: ns) c).mp hmem).2 (List.mem_cons_self c ns)

theorem compileReader_length : ∀ (cfgs ns : List String),
    (compileReader ns cfgs).built.length + (compileReader ns cfgs).dups.length = cfgs.length := by
  intro cfgs
  induction cfgs with
  | nil => intro ns; simp [compileReader]
  | cons c rest ih =>
    intro ns
    by_cases hc : c ∈ ns
    · have := ih ns
      simp only [compileReader, if_pos hc, List.length_cons]
      omega
    · have := ih (c :: ns)
      simp only [compileReader, if_neg hc, List.length_cons]
      omega

theorem compileReader_dups_of_mem : ∀ (cfgs ns : List String) (n : String),
    n ∈ ns → n ∈ cfgs → n ∈ (compileReader ns cfgs).dups := by
  intro cfgs
  induction cfgs with
  | nil => intro ns n _ h; simp at h
  | cons c rest ih =>
    intro ns n hns hmem
    rcases List.mem_cons.mp hmem with rfl | h
    · simp [compileReader, hns]
    · by_cases hc : c ∈ ns
      · have hshape : (compileReader ns (c :: rest)).dups
            = c :: (compileReader ns rest).dups := by
          simp [compileReader, hc]
        rw [hshape]
        exact List.mem_cons_of_mem _ (ih ns n hns h)
      · have hshape : (compileReader ns (c :: rest)).dups
            = (compileReader (c :: ns) rest).dups := by
          simp [compileReader, hc]
        rw [hshape]
        exact ih (c :: ns) n (List.mem_cons_of_mem _ hns) h

/-! ## Claim theorems -/

/-- C1: for a stateless (Delta) synchronous pipeline, Collect moves each
cell's accumulated value into fresh storage, resets the cell, and emits a
series carrying the value accumulated since the previous collection with
Start = seq.Last and End = seq.Now; concretely, after updates +3, +4, +5 the
first collect emits 12 and, after a further +1, the second collect emits 1. -/
theorem C1_stateless_sync_delta_collect :
    (∀ (seq : Sequence) (data : List (Nat × Int)) (a : Nat) (v : Int),
        (a, v) ∈ data → v ≠ 0 →
        Series.mk a v seq.Last seq.Now ∈ (statelessSyncCollect seq data).2
          ∧ (a, (0 : Int)) ∈ (statelessSyncCollect seq data).1)
      ∧ c1Collect1.2 = [Series.mk 0 12 0 1]
      ∧ c1Collect2.2 = [Series.mk 0 1 1 2] :=
  ⟨fun seq data a v hmem hv => statelessSyncCollect_mem seq data a v hmem hv,
   by decide, by decide⟩

/-- Witness for C1 at a concrete input. -/
theorem C1_stateless_sync_delta_collect_witness :
    Series.mk 5 7 0 1 ∈ (statelessSyncCollect ⟨0, 0, 1⟩ [(5, 7)]).2
      ∧ ((5 : Nat), (0 : Int)) ∈ (statelessSyncCollect ⟨0, 0, 1⟩ [(5, 7)]).1 :=
  C1_stateless_sync_delta_collect.1 ⟨0, 0, 1⟩ [(5, 7)] 5 7 (by simp) (by decide)

/-- C9: after a stateless (Delta) synchronous Collect, attribute sets whose
cells had no data are absent from the pipeline map, while sets whose cells
had data remain present with their storage reset. -/
theorem C9_delta_sync_gc :
    ∀ (seq : Sequence) (data : List (Nat × Int)) (a : Nat) (v : Int),
      (data.map Prod.fst).Nodup → (a, v) ∈ data →
      (v = 0 → a ∉ ((statelessSyncCollect seq data).1.map Prod.fst))
        ∧ (v ≠ 0 → (a, (0 : Int)) ∈ (statelessSyncCollect seq data).1) :=
  fun seq data a v hnd hmem =>
    ⟨fun hv => statelessSyncCollect_absent seq data a v hnd hmem hv,
     fun hv => (statelessSyncCollect_mem seq data a v hmem hv).2⟩

/-- Witness for C9 at a concrete input: the dataless cell for set 3 is
removed while the cell for set 4 stays, reset. -/
theorem C9_delta_sync_gc_witness :
    3 ∉ ((statelessSyncCollect ⟨0, 1, 2⟩ [(3, 0), (4, 2)]).1.map Prod.fst) :=
  (C9_delta_sync_gc ⟨0, 1, 2⟩ [(3, 0), (4, 2)] 3 0 (by decide) (by simp)).1 rfl

/-- C3: after a stateful asynchronous Collect, the pipeline's prior map
equals, entry for entry with unchanged cumulative values, the data map the
Collect iterated over, and the data map is empty. -/
theorem C3_stateful_async_prior_becomes_data :
    ∀ (k : InstrumentKind) (seq : Sequence) (data prior : List (Nat × Int)),
      (statefulAsyncCollect k seq data prior).1.2 = data
        ∧ (statefulAsyncCollect k seq data prior).1.1 = []
        ∧ ∀ a, alookup a (statefulAsyncCollect k seq data prior).1.2 = alookup a data :=
  fun _ _ _ _ => ⟨rfl, rfl, fun _ => rfl⟩

/-- C2: stateful asynchronous Collect emits, per attribute set in the data
map: with a prior entry pval, the SubtractSwap difference decides the
series (skipped when it has no data; emitted when the kind has temporality;
the new cumulative value emitted for Gauge); without a prior entry the
cumulative value is emitted; and every emitted series carries
Start = seq.Start and End = seq.Now. -/
theorem C2_stateful_async_collect_emission :
    (∀ (k : InstrumentKind) (seq : Sequence) (data prior : List (Nat × Int)) (s : Series),
        s ∈ (statefulAsyncCollect k seq data prior).2 →
        s.Start = seq.Start ∧ s.End = seq.Now)
      ∧ (∀ (k : InstrumentKind) (seq : Sequence) (data prior : List (Nat × Int))
            (a : Nat) (storage : Int),
          (data.map Prod.fst).Nodup → (a, storage) ∈ data →
          ((∀ pv, alookup a prior = some pv →
              ((sumSubtractSwap storage pv = 0 →
                  ∀ s ∈ (statefulAsyncCollect k seq data prior).2, s.Attributes ≠ a)
                ∧ (sumSubtractSwap storage pv ≠ 0 →
                    Series.mk a (if k.HasTemporality then sumSubtractSwap storage pv else storage)
                        seq.Start seq.Now ∈ (statefulAsyncCollect k seq data prior).2)))
            ∧ (alookup a prior = none →
                Series.mk a storage seq.Start seq.Now
                  ∈ (statefulAsyncCollect k seq data prior).2))) := by
  constructor
  · intro k seq data prior s hs
    obtain ⟨e, _, hfe⟩ := List.mem_filterMap.mp hs
    exact ⟨(asyncSeriesOf_attr k seq prior e s hfe).2.1,
           (asyncSeriesOf_attr k seq prior e s hfe).2.2⟩
  · intro k seq data prior a storage hnd hmem
    refine ⟨fun pv hpv => ⟨fun hzero s hs hattr => ?_, fun hnz => ?_⟩, fun hnone => ?_⟩
    · obtain ⟨e, he, hfe⟩ := List.mem_filterMap.mp hs
      obtain ⟨p, q⟩ := e
      have hattr2 : s.Attributes = p := (asyncSeriesOf_attr k seq prior (p, q) s hfe).1
      rw [hattr2] at hattr
      subst hattr
      have hq : q = storage := nodupKeys_eq_val data p q storage hnd he hmem
      subst hq
      simp [asyncSeriesOf, hpv, hzero, sumHasData] at hfe
    · refine List.mem_filterMap.mpr ⟨(a, storage), hmem, ?_⟩
      simp [asyncSeriesOf, hpv, sumHasData, hnz]
    · refine List.mem_filterMap.mpr ⟨(a, storage), hmem, ?_⟩
      simp [asyncSeriesOf, hnone]

/-- Witness for C2 at a concrete input: the Gauge-observer delta scenario
(observe 7, then 11) emits the new cumulative value 11 rather than the
difference 4. -/
theorem C2_stateful_async_collect_emission_witness :
    Series.mk 0 11 0 2 ∈ (statefulAsyncCollect .GaugeObserver ⟨0, 1, 2⟩ [(0, 11)] [(0, 7)]).2 := by
  have h := ((C2_stateful_async_collect_emission.2 .GaugeObserver ⟨0, 1, 2⟩ [(0, 11)] [(0, 7)]
      0 11 (by decide) (by simp)).1 7 rfl).2 (by decide)
  simpa [InstrumentKind.HasTemporality] using h

/-- C4 counterexample: a view carrying the non-empty description override
"view description" leaves the compiled descriptor with the instrument's
original description, refuting the claim that the view's description
replaces it. -/
theorem C4_counterexample_description_kept :
    (viewDescriptor ⟨"request.count", .Counter, .Int64Kind, "original description", "1"⟩
        ⟨false, "", "view description"⟩).description = "original description"
      ∧ ¬ (viewDescriptor ⟨"request.count", .Counter, .Int64Kind, "original description", "1"⟩
        ⟨false, "", "view description"⟩).description = "view description" := by
  constructor
  · rfl
  · decide

/-- C4 (amended): the view rewrites only the name (when it has one); the
descriptor's description always remains the instrument's original
description, even when the view's description override is non-empty, and
the instrument kind, number kind and unit are unchanged. -/
theorem C4_view_descriptor_fields :
    ∀ (i : Descriptor) (v : View),
      (viewDescriptor i v).description = i.description
        ∧ (viewDescriptor i v).name = (if v.hasName then v.name else i.name)
        ∧ (viewDescriptor i v).ikind = i.ikind
        ∧ (viewDescriptor i v).nkind = i.nkind
        ∧ (viewDescriptor i v).unit = i.unit := by
  intro i v
  refine ⟨?_, rfl, rfl, rfl, rfl⟩
  show (if v.description ≠ "" then i.description else i.description) = i.description
  exact ite_self _

/-- C5: when two configured behaviors for one reader carry the same emitted
name, only the first (per registration order) builds a pipeline, every later
one is reported as a duplicate, and the remaining behaviors are still
compiled: built names are exactly the fresh names, without repetition, and
every configured behavior is accounted for as either built or reported. -/
theorem C5_duplicate_names_reported_not_fatal :
    (∀ (ns cfgs : List String) (n : String),
        n ∈ (compileReader ns cfgs).built ↔ (n ∈ cfgs ∧ n ∉ ns))
      ∧ (∀ (ns cfgs : List String), (compileReader ns cfgs).built.Nodup)
      ∧ (∀ (ns cfgs : List String),
          (compileReader ns cfgs).built.length + (compileReader ns cfgs).dups.length
            = cfgs.length)
      ∧ compileReader [] ["dup", "dup", "other"]
        = ⟨["other", "dup"], ["dup", "other"], ["dup"]⟩ :=
  ⟨fun ns cfgs n => compileReader_mem_built cfgs ns n,
   fun ns cfgs => compileReader_built_nodup cfgs ns,
   fun ns cfgs => compileReader_length cfgs ns,
   by decide⟩

/-- C10: the Compiler's per-reader emitted-name set persists across Compile
invocations: a name built by an earlier Compile for a reader makes any
later Compile emitting the same name for that reader report a duplicate and
build no pipeline for it. -/
theorem C10_names_persist_across_compiles :
    ∀ (c : Compiler) (cfgs1 cfgs2 : Nat → List String) (r : Nat) (n : String),
      n ∈ ((c.Compile cfgs1).2 r).built →
      n ∉ (((c.Compile cfgs1).1.Compile cfgs2).2 r).built
        ∧ (n ∈ cfgs2 r → n ∈ (((c.Compile cfgs1).1.Compile cfgs2).2 r).dups) := by
  intro c cfgs1 cfgs2 r n hbuilt
  have h1 := (compileReader_mem_built (cfgs1 r) (c.names r) n).mp hbuilt
  have hn : n ∈ (compileReader (c.names r) (cfgs1 r)).names :=
    (compileReader_mem_names (cfgs1 r) (c.names r) n).mpr (Or.inr h1.1)
  constructor
  · intro hcon
    exact ((compileReader_mem_built (cfgs2 r) _ n).mp hcon).2 hn
  · intro h2
    exact compileReader_dups_of_mem (cfgs2 r) _ n hn h2

/-- Witness for C10 at a concrete input: a second Compile reusing a name
registered by the first builds nothing for it. -/
theorem C10_names_persist_across_compiles_witness :
    "latency" ∉ ((((⟨fun _ => []⟩ : Compiler).Compile (fun _ => ["latency"])).1.Compile
        (fun _ => ["latency"])).2 0).built :=
  (C10_names_persist_across_compiles ⟨fun _ => []⟩ (fun _ => ["latency"])
      (fun _ => ["latency"]) 0 "latency" (by decide)).1

/-- C6 (code evaluated at the failing input): Compile does return the nil
instrument when no reader produced a pipeline, but an asynchronous Observe
against it, inside a valid callback that declared the instrument, reaches
Instrument.get with a nil compiled instrument and faults instead of being
silently discarded. -/
theorem C6_null_instrument_async_observe_faults :
    compileWrap [[], []] = none
      ∧ Observe ⟨1, .GaugeObserver, none⟩ (some ⟨0, [1]⟩) 5 0 []
        = ⟨[], [], true⟩ :=
  ⟨rfl, rfl⟩

/-- C7: an Observe outside of a live callback context changes no
accumulator state and reports the scope violation through the handler. -/
theorem C7_observe_outside_callback :
    ∀ (inst : AsyncInstrument) (value : Int) (attrs : Nat) (store : List (Nat × Int)),
      Observe inst none value attrs store
        = ⟨store, [ObserveError.outsideCallback], false⟩ :=
  fun _ _ _ _ => rfl

/-- C8 (code evaluated at the failing input): an Observe from a callback
that did not declare the instrument reports the error but is not dropped:
the in-range value 5 is still routed into the per-reader accumulator, and
the out-of-range value -5 is still range-tested. -/
theorem C8_undeclared_observe_still_routes :
    Observe ⟨1, .CounterObserver, some ()⟩ (some ⟨0, [2]⟩) 5 0 []
        = ⟨[(0, 5)], [ObserveError.notDeclared], false⟩
      ∧ Observe ⟨1, .CounterObserver, some ()⟩ (some ⟨0, [2]⟩) (-5) 0 []
        = ⟨[], [ObserveError.notDeclared, ObserveError.rangeViolation], false⟩ := by
  exact ⟨by decide, by decide⟩

end OtelMetrics
